import Mathlib

/-!
# Verification of the dfu-core download and status-polling engines

Shallow embedding of `src/get_status.rs` and `src/download.rs` of the
`dfu-core` crate.  Machine integers (`u16`, `u32`) are modelled as `Nat`
with `checked_add` made explicit against `U16_MAX` / `U32_MAX`; byte
slices are `List Nat`; the external transport (`DfuIo`) is modelled as a
pure recorder: `write_control` / `read_control` return a description of
the control transfer that would be issued instead of performing I/O.
-/

set_option autoImplicit false

namespace Dfu

/-- `u32::MAX`. -/
def U32_MAX : Nat := 4294967295

/-- `u16::MAX`. -/
def U16_MAX : Nat := 65535

/-- `u32::checked_add`: `none` on overflow past `U32_MAX`. -/
def u32_checked_add (a b : Nat) : Option Nat :=
  if a + b ≤ U32_MAX then some (a + b) else none

/-- `u16::checked_add`: `none` on overflow past `U16_MAX`. -/
def u16_checked_add (a b : Nat) : Option Nat :=
  if a + b ≤ U16_MAX then some (a + b) else none

/-- `u32::to_le_bytes`: the four little-endian bytes of a 32-bit value. -/
def u32_to_le_bytes (n : Nat) : List Nat :=
  [n % 256, n / 256 % 256, n / 65536 % 256, n / 16777216 % 256]

/-- Device-reported outcome code of the last operation (`Status` in the
crate root; its variants are those decoded in `src/get_status.rs`). -/
inductive Status where
  | Ok
  | ErrTarget
  | ErrFile
  | ErrWrite
  | ErrErase
  | ErrCheckErased
  | ErrProg
  | ErrVerify
  | ErrAddress
  | ErrNotdone
  | ErrFirmware
  | ErrVendor
  | ErrUsbr
  | ErrPor
  | ErrUnknown
  | ErrStalledpkt
  | Other (code : Nat)
  deriving DecidableEq, Repr

/-- Device lifecycle position (`State` in the crate root; its variants are
those decoded in `src/get_status.rs`). -/
inductive State where
  | AppIdle
  | AppDetach
  | DfuIdle
  | DfuUnloadSync
  | DfuDnbusy
  | DfuDnloadIdle
  | DfuManifestSync
  | DfuManifest
  | DfuManifestWaitReset
  | DfuUploadIdle
  | DfuError
  | Other (code : Nat)
  deriving DecidableEq, Repr

/-- The crate's `Error` enum lives outside `src/`; the variants below are
exactly the ones constructed by the code under `src/`
(`InvalidState`, `ResponseTooShort`, `NoSpaceLeft`, `EraseLimitReached`,
`MaximumTransferSizeExceeded`, `MaximumChunksExceeded`, `BufferTooBig`),
plus `StatusError`/`StateError`, modelled from the spec as the terminal
errors raised by `Status::raise_error`/`State::raise_error`. -/
inductive Error where
  | InvalidState (got expected : State)
  | ResponseTooShort (got expected : Nat)
  | NoSpaceLeft
  | EraseLimitReached
  | MaximumTransferSizeExceeded
  | MaximumChunksExceeded
  | BufferTooBig (got expected : Nat)
  | StatusError (status : Status)
  | StateError (state : State)
  deriving DecidableEq, Repr

/-- Modelled from the spec: `Status::raise_error` is declared outside
`src/`; the spec states that any variant other than `Ok` is fatal and
must short-circuit the pending continuation. -/
def Status.raise_error : Status → Except Error Unit
  | .Ok => .ok ()
  | s => .error (.StatusError s)

/-- Modelled from the spec: `State::raise_error` is declared outside
`src/`; the spec states that `DfuError` is fatal and must short-circuit
the pending continuation, mirroring `Status`. -/
def State.raise_error : State → Except Error Unit
  | .DfuError => .error (.StateError .DfuError)
  | _ => .ok ()

/-- Decoding of the status byte, from the `match bytes.get_u8()` in
`GetStatusRecv::chain` (`src/get_status.rs`). -/
def Status.fromByte : Nat → Status
  | 0x00 => .Ok
  | 0x01 => .ErrTarget
  | 0x02 => .ErrFile
  | 0x03 => .ErrWrite
  | 0x04 => .ErrErase
  | 0x05 => .ErrCheckErased
  | 0x06 => .ErrProg
  | 0x07 => .ErrVerify
  | 0x08 => .ErrAddress
  | 0x09 => .ErrNotdone
  | 0x0a => .ErrFirmware
  | 0x0b => .ErrVendor
  | 0x0c => .ErrUsbr
  | 0x0d => .ErrPor
  | 0x0e => .ErrUnknown
  | 0x0f => .ErrStalledpkt
  | other => .Other other

/-- Decoding of the state byte, from the second `match bytes.get_u8()` in
`GetStatusRecv::chain` (`src/get_status.rs`). -/
def State.fromByte : Nat → State
  | 0 => .AppIdle
  | 1 => .AppDetach
  | 2 => .DfuIdle
  | 3 => .DfuUnloadSync
  | 4 => .DfuDnbusy
  | 5 => .DfuDnloadIdle
  | 6 => .DfuManifestSync
  | 7 => .DfuManifest
  | 8 => .DfuManifestWaitReset
  | 9 => .DfuUploadIdle
  | 10 => .DfuError
  | other => .Other other

/-- The device's functional descriptor, consulted read-only by both
engines. `transfer_size` is a `u16` widened to `u32` at use sites. -/
structure FunctionalDescriptor where
  transfer_size : Nat
  manifestation_tolerant : Bool
  will_detach : Bool
  deriving DecidableEq, Repr

/-- A control transfer issued through `DfuIo::write_control`, recorded
instead of executed: request-type byte, request code, `wValue`, payload. -/
structure ControlRequest where
  requestType : Nat
  request : Nat
  value : Nat
  payload : List Nat
  deriving DecidableEq, Repr

/-- Pure model of `DfuIo::write_control`: records the transfer. -/
def write_control (requestType request value : Nat) (payload : List Nat) :
    ControlRequest :=
  { requestType := requestType, request := request, value := value,
    payload := payload }

/-- A pending read issued through `DfuIo::read_control`, recorded instead
of executed (the caller-owned buffer receives the response). -/
structure ReadRequest where
  requestType : Nat
  request : Nat
  value : Nat
  deriving DecidableEq, Repr

/-- `GetStatusMessage = (Status, PollTimeout, State, Index)` from
`src/get_status.rs`. -/
def GetStatusMessage : Type := Status × Nat × State × Nat

namespace get_status

/-- `REQUEST_TYPE` of `src/get_status.rs` (= `0b00100001`). -/
def REQUEST_TYPE : Nat := 33

/-- `DFU_GETSTATUS` request code. -/
def DFU_GETSTATUS : Nat := 3

/-- `DFU_CLRSTATUS` request code. -/
def DFU_CLRSTATUS : Nat := 4

/-- `GetStatus`: command that queries the status of the device, holding a
continuation (`dfu` handle dropped: it only carries the transport). -/
structure GetStatus (T : Type) where
  chained_command : T

/-- `GetStatusRecv`: command that receives the status response and chains
it into another command. -/
structure GetStatusRecv (T : Type) where
  chained_command : T

/-- `GetStatus::get_status`: the source runs
`debug_assert!(buffer.len() >= 6)` and then issues the GETSTATUS read.
The assertion is modelled as a guard: `none` models the panic on a
violated precondition. Only the buffer's length is relevant. -/
def GetStatus.get_status {T : Type} (self : GetStatus T) (buffer_len : Nat) :
    Option (GetStatusRecv T × ReadRequest) :=
  if 6 ≤ buffer_len then
    some ({ chained_command := self.chained_command },
      { requestType := REQUEST_TYPE, request := DFU_GETSTATUS, value := 0 })
  else
    none

/-- `GetStatusRecv::chain` (`src/get_status.rs`): checks the response is
at least 6 bytes (`bytes.get_u8`/`get_uint_le(3)` consume the head bytes,
so a list pattern of six head bytes is the length check), decodes status,
3-byte little-endian poll timeout, state and string index, raises the
terminal errors, then forwards the report to the continuation `chained`.
The `ChainedCommand` trait is modelled by passing the trait method as the
function `chained`. -/
def GetStatusRecv.chain {T I : Type} (chained : T → GetStatusMessage → I)
    (self : GetStatusRecv T) (bytes : List Nat) : Except Error I :=
  match bytes with
  | b0 :: b1 :: b2 :: b3 :: b4 :: b5 :: _ => do
    let status := Status.fromByte b0
    let poll_timeout := b1 + 256 * b2 + 65536 * b3
    let state := State.fromByte b4
    let i_string := b5
    status.raise_error
    state.raise_error
    .ok (chained self.chained_command (status, poll_timeout, state, i_string))
  | _ => .error (.ResponseTooShort bytes.length 6)

/-- `ClearStatus`: command that clears the status of the device. -/
structure ClearStatus (T : Type) where
  chained_command : T

/-- `ClearStatus::clear`: issue CLRSTATUS (`wValue = 0`, empty payload)
and resume the stored continuation unchanged. -/
def ClearStatus.clear {T : Type} (self : ClearStatus T) :
    T × ControlRequest :=
  (self.chained_command, write_control REQUEST_TYPE DFU_CLRSTATUS 0 [])

/-- `reset::UsbReset<'dfu, IO, ()>` as yielded by `WaitState::next`: an
opaque external command (its own protocol is out of scope). -/
structure UsbReset where
  chained_command : Unit
  deriving DecidableEq, Repr

/-- `WaitState`: command that waits for the device to enter a state.
The Rust field `end` is named `end_` (`end` is a Lean keyword). -/
structure WaitState (T : Type) where
  state : State
  chained_command : T
  end_ : Bool
  poll_timeout : Nat
  in_manifest : Bool

/-- `Step` from `src/get_status.rs`: the step to take after waiting for a
state. -/
inductive Step (T : Type) where
  | Break (t : T)
  | Wait (g : GetStatus (WaitState T)) (poll_timeout : Nat)
  | ManifestWaitReset (r : Option UsbReset)

/-- `WaitState::next`: decide between breaking out, branching to
manifestation/reset handling, and re-issuing GETSTATUS. -/
def WaitState.next {T : Type} (func_desc : FunctionalDescriptor)
    (self : WaitState T) : Step T :=
  if self.end_ then
    .Break self.chained_command
  else if self.in_manifest && !func_desc.manifestation_tolerant then
    .ManifestWaitReset
      (if func_desc.will_detach then none else some { chained_command := () })
  else
    .Wait { chained_command := self } self.poll_timeout

/-- `impl ChainedCommand for WaitState`: recompute `end`, `in_manifest`
and the carried poll timeout from the latest status report. -/
def WaitState.chain {T : Type} (self : WaitState T) (arg : GetStatusMessage) :
    WaitState T :=
  match arg with
  | (_status, poll_timeout, state, _index) =>
    { state := self.state
      chained_command := self.chained_command
      end_ := decide (state = self.state)
      poll_timeout := poll_timeout
      in_manifest := decide (state = State.DfuManifest) }

end get_status

namespace download

/-- `REQUEST_TYPE` of `src/download.rs` (= `0b00100001`). -/
def REQUEST_TYPE : Nat := 33

/-- `DFU_DNLOAD` request code. -/
def DFU_DNLOAD : Nat := 1

/-- `memory_layout::mem` (declared outside `src/`): an ordered sequence
of erasable page sizes, consumed head-first; `split_first` is the `List`
head/tail split. -/
def MemoryLayout : Type := List Nat

/-- `Start`: command that starts the writing of the firmware into the
device (`dfu` handle dropped: it only carries the transport). -/
structure Start where
  memory_layout : MemoryLayout
  address : Nat
  end_pos : Nat

/-- `DownloadLoop`: the cursor state of an in-progress download. -/
structure DownloadLoop where
  memory_layout : MemoryLayout
  end_pos : Nat
  copied_pos : Nat
  erased_pos : Nat
  address_set : Bool
  block_num : Nat
  eof : Bool

/-- `impl ChainedCommand for Start`: on `DfuIdle` begin the loop with
`block_num = 2` and both positions at the start address; on any other
state fail with `InvalidState`. -/
def Start.chain (self : Start) (arg : Dfu.GetStatusMessage) :
    Except Error DownloadLoop :=
  match arg with
  | (_status, _poll_timeout, state, _index) =>
    if state = State.DfuIdle then
      .ok { memory_layout := self.memory_layout
            end_pos := self.end_pos
            copied_pos := self.address
            erased_pos := self.address
            address_set := false
            block_num := 2
            eof := false }
    else
      .error (.InvalidState state State.DfuIdle)

/-- `ErasePage`: command to erase a memory page. -/
structure ErasePage where
  memory_layout : MemoryLayout
  end_pos : Nat
  copied_pos : Nat
  erased_pos : Nat
  block_num : Nat

/-- `SetAddress`: command to set the address before writing. -/
structure SetAddress where
  memory_layout : MemoryLayout
  end_pos : Nat
  copied_pos : Nat
  erased_pos : Nat
  block_num : Nat

/-- `DownloadChunk`: command to write a chunk of data to the device. -/
structure DownloadChunk where
  memory_layout : MemoryLayout
  end_pos : Nat
  copied_pos : Nat
  erased_pos : Nat
  block_num : Nat

/-- `Step` from `src/download.rs`: a download step when writing a
firmware to the device. -/
inductive Step where
  | Break
  | Erase (e : ErasePage)
  | SetAddress (s : SetAddress)
  | DownloadChunk (d : DownloadChunk)

/-- `DownloadLoop::next`: retrieve the next command of the loop. -/
def DownloadLoop.next (self : DownloadLoop) : Step :=
  if self.eof then
    .Break
  else if self.erased_pos < self.end_pos then
    .Erase { memory_layout := self.memory_layout, end_pos := self.end_pos,
             copied_pos := self.copied_pos, erased_pos := self.erased_pos,
             block_num := self.block_num }
  else if !self.address_set then
    .SetAddress { memory_layout := self.memory_layout,
                  end_pos := self.end_pos, copied_pos := self.copied_pos,
                  erased_pos := self.erased_pos, block_num := self.block_num }
  else
    .DownloadChunk { memory_layout := self.memory_layout,
                     end_pos := self.end_pos, copied_pos := self.copied_pos,
                     erased_pos := self.erased_pos,
                     block_num := self.block_num }

/-- `DownloadCommandErase`: download command to erase a memory page. -/
structure DownloadCommandErase where
  addr : Nat

/-- `impl From<DownloadCommandErase> for [u8; 5]`: opcode `0x41` followed
by the 32-bit address in little-endian order. -/
def DownloadCommandErase.toBytes (command : DownloadCommandErase) :
    List Nat :=
  0x41 :: u32_to_le_bytes command.addr

/-- `DownloadCommandSetAddress`: download command to set the address. -/
structure DownloadCommandSetAddress where
  addr : Nat

/-- `impl From<DownloadCommandSetAddress> for [u8; 5]`: opcode `0x21`
followed by the 32-bit address in little-endian order. -/
def DownloadCommandSetAddress.toBytes (command : DownloadCommandSetAddress) :
    List Nat :=
  0x21 :: u32_to_le_bytes command.addr

/-- `ErasePage::erase`: split the head page off the layout
(`Error::NoSpaceLeft` when exhausted), build the continuation with
`erased_pos` advanced by the page size (`Error::EraseLimitReached` on
overflow) and that page consumed, and issue the 5-byte erase command for
the pre-advance `erased_pos` with `wValue = 0`.  `write_control` cannot
fail in the pure transport model, so the result pairs the polling state
with the recorded request. -/
def ErasePage.erase (self : ErasePage) :
    Except Error (get_status.WaitState DownloadLoop × ControlRequest) :=
  match self.memory_layout with
  | [] => .error .NoSpaceLeft
  | page_size :: rest_memory_layout =>
    match u32_checked_add self.erased_pos page_size with
    | none => .error .EraseLimitReached
    | some erased => .ok
      ({ state := State.DfuDnloadIdle
         chained_command :=
           { memory_layout := rest_memory_layout
             end_pos := self.end_pos
             copied_pos := self.copied_pos
             erased_pos := erased
             block_num := self.block_num
             address_set := false
             eof := false }
         end_ := false
         poll_timeout := 0
         in_manifest := false },
       write_control REQUEST_TYPE DFU_DNLOAD 0
         (DownloadCommandErase.toBytes { addr := self.erased_pos }))

/-- `SetAddress::set_address`: issue the 5-byte set-address command for
`copied_pos` with `wValue = 0` and mark the address set in the
continuation. -/
def SetAddress.set_address (self : SetAddress) :
    get_status.WaitState DownloadLoop × ControlRequest :=
  ({ state := State.DfuDnloadIdle
     chained_command :=
       { memory_layout := self.memory_layout
         end_pos := self.end_pos
         copied_pos := self.copied_pos
         erased_pos := self.erased_pos
         block_num := self.block_num
         address_set := true
         eof := false }
     end_ := false
     poll_timeout := 0
     in_manifest := false },
   write_control REQUEST_TYPE DFU_DNLOAD 0
     (DownloadCommandSetAddress.toBytes { addr := self.copied_pos }))

/-- `DownloadChunk::write`: `u32::try_from(bytes.len())` fails with
`Error::BufferTooBig` past `u32::MAX`; the sent length is
`min(bytes.len(), transfer_size)`; the continuation advances
`copied_pos` by that length (`Error::MaximumTransferSizeExceeded` on
overflow) and `block_num` by one (`Error::MaximumChunksExceeded` on
overflow) and records `eof = bytes.is_empty()`; the recorded transfer
carries `wValue = block_num` and the truncated payload. -/
def DownloadChunk.write (func_desc : FunctionalDescriptor)
    (self : DownloadChunk) (bytes : List Nat) :
    Except Error (get_status.WaitState DownloadLoop × ControlRequest) :=
  if bytes.length ≤ U32_MAX then
    let len := min bytes.length func_desc.transfer_size
    match u32_checked_add self.copied_pos len with
    | none => .error .MaximumTransferSizeExceeded
    | some copied =>
      match u16_checked_add self.block_num 1 with
      | none => .error .MaximumChunksExceeded
      | some block => .ok
        ({ state := State.DfuDnloadIdle
           chained_command :=
             { memory_layout := self.memory_layout
               end_pos := self.end_pos
               copied_pos := copied
               erased_pos := self.erased_pos
               block_num := block
               address_set := true
               eof := bytes.isEmpty }
           end_ := false
           poll_timeout := 0
           in_manifest := false },
         write_control REQUEST_TYPE DFU_DNLOAD self.block_num
           (bytes.take len))
  else
    .error (.BufferTooBig bytes.length U32_MAX)

/-- Observable summary of one download step, recorded by the loop
driver: the erase address and consumed page size, the set address, the
block number / input-chunk length / sent-payload length of a chunk
write, or the final break. -/
inductive TraceStep where
  | erase (addr page : Nat)
  | setAddr (addr : Nat)
  | chunk (block inputLen sentLen : Nat)
  | brk
  deriving DecidableEq, Repr

/-- Driver for the download loop, as the crate's caller runs it: take
`DownloadLoop::next`, perform the phase's action, and — since each phase
yields a `WaitState` targeting `DfuDnloadIdle` — resume with that
polling state's continuation once polling confirms the state.  `chunks`
is the list of byte slices the caller feeds to successive
`DownloadChunk::write` calls.  Results: `none` when the fuel runs out or
the caller has no chunk left to feed, `some (.error e)` when a phase
fails, `some (.ok trace)` on a completed run. -/
def runLoop (func_desc : FunctionalDescriptor) :
    Nat → DownloadLoop → List (List Nat) →
    Option (Except Error (List TraceStep))
  | 0, _, _ => none
  | fuel + 1, dl, chunks =>
    match dl.next with
    | .Break => some (.ok [.brk])
    | .Erase e =>
      match e.erase with
      | .error er => some (.error er)
      | .ok (ws, _req) =>
        (runLoop func_desc fuel ws.chained_command chunks).map
          (fun r => r.map
            (fun tr => .erase e.erased_pos (e.memory_layout.headD 0) :: tr))
    | .SetAddress s =>
      (runLoop func_desc fuel (s.set_address).1.chained_command chunks).map
        (fun r => r.map (fun tr => .setAddr s.copied_pos :: tr))
    | .DownloadChunk d =>
      match chunks with
      | [] => none
      | c :: rest =>
        match d.write func_desc c with
        | .error er => some (.error er)
        | .ok (ws, req) =>
          (runLoop func_desc fuel ws.chained_command rest).map
            (fun r => r.map
              (fun tr =>
                .chunk d.block_num c.length req.payload.length :: tr))

/-- Shape of the chunk phase of a completed trace: one or more chunk
writes, all but the last with a non-empty input slice, the last with an
empty input slice (which is also sent empty), then the break and nothing
after it. -/
inductive ChunkShape : List TraceStep → Prop where
  | last (block : Nat) : ChunkShape [.chunk block 0 0, .brk]
  | cons (block inputLen sentLen : Nat) (t : List TraceStep)
      (hne : inputLen ≠ 0) (ht : ChunkShape t) :
      ChunkShape (.chunk block inputLen sentLen :: t)

/-- Shape of a completed trace starting from a loop state with erase
position `a`, remaining layout `l` and copied position `c`: zero or more
erases, each at the running erase position and consuming the head page
of the remaining layout, then exactly one set-address at `c`, then a
`ChunkShape` tail. -/
inductive LoopShape : Nat → List Nat → Nat → List TraceStep → Prop where
  | set (a : Nat) (l : List Nat) (c : Nat) (t : List TraceStep)
      (ht : ChunkShape t) : LoopShape a l c (.setAddr c :: t)
  | erase (a page : Nat) (l : List Nat) (c : Nat) (t : List TraceStep)
      (ht : LoopShape (a + page) l c t) :
      LoopShape a (page :: l) c (.erase a page :: t)

/-- The erase prefix a run starting at erase position `a` produces while
consuming the pages of `pages`. -/
def eraseTrace : Nat → List Nat → List TraceStep
  | _, [] => []
  | a, page :: pages => .erase a page :: eraseTrace (a + page) pages

end download

/-- Little-endian recomposition of a byte list, used to state that the
wire encodings are genuine little-endian encodings. -/
def le_decode (l : List Nat) : Nat :=
  l.foldr (fun b acc => b + 256 * acc) 0

/-! ## Helper lemmas -/

theorem status_raise_error_eq (s : Status) :
    s.raise_error = if s = .Ok then .ok () else .error (.StatusError s) := by
  cases s <;> rfl

theorem state_raise_error_eq (s : State) :
    s.raise_error =
      if s = .DfuError then .error (.StateError .DfuError) else .ok () := by
  cases s <;> rfl

theorem except_bind_ok {α β ε : Type} (a : α) (f : α → Except ε β) :
    (Except.ok a >>= f) = f a := rfl

theorem except_bind_error {α β ε : Type} (e : ε) (f : α → Except ε β) :
    ((Except.error e : Except ε α) >>= f) = .error e := rfl

/-- Characterization of `ErasePage::erase`: it succeeds exactly when the
layout has a head page and the advance does not overflow, and then the
polling state and recorded request are fully determined. -/
theorem erase_ok_iff (e : download.ErasePage)
    (ws : get_status.WaitState download.DownloadLoop) (req : ControlRequest) :
    e.erase = .ok (ws, req) ↔
      ∃ page rest, e.memory_layout = page :: rest
        ∧ e.erased_pos + page ≤ U32_MAX
        ∧ ws = { state := State.DfuDnloadIdle
                 chained_command :=
                   { memory_layout := rest, end_pos := e.end_pos,
                     copied_pos := e.copied_pos,
                     erased_pos := e.erased_pos + page,
                     block_num := e.block_num, address_set := false,
                     eof := false }
                 end_ := false, poll_timeout := 0, in_manifest := false }
        ∧ req = write_control download.REQUEST_TYPE download.DFU_DNLOAD 0
            (download.DownloadCommandErase.toBytes { addr := e.erased_pos }) := by
  constructor
  · intro h
    rcases hml : e.memory_layout with _ | ⟨page, rest⟩
    · simp [download.ErasePage.erase, hml] at h
    · by_cases hle : e.erased_pos + page ≤ U32_MAX
      · simp [download.ErasePage.erase, hml, u32_checked_add, hle] at h
        exact ⟨page, rest, rfl, hle, h.1.symm, h.2.symm⟩
      · simp [download.ErasePage.erase, hml, u32_checked_add, hle] at h
  · rintro ⟨page, rest, hml, hle, hws, hreq⟩
    subst hws
    subst hreq
    simp [download.ErasePage.erase, hml, u32_checked_add, hle]

/-- Characterization of `DownloadChunk::write`: it succeeds exactly when
the slice length is representable and neither counter overflows, and
then the polling state and recorded request are fully determined. -/
theorem write_ok_iff (fd : FunctionalDescriptor) (d : download.DownloadChunk)
    (bytes : List Nat) (ws : get_status.WaitState download.DownloadLoop)
    (req : ControlRequest) :
    d.write fd bytes = .ok (ws, req) ↔
      bytes.length ≤ U32_MAX
      ∧ d.copied_pos + min bytes.length fd.transfer_size ≤ U32_MAX
      ∧ d.block_num + 1 ≤ U16_MAX
      ∧ ws = { state := State.DfuDnloadIdle
               chained_command :=
                 { memory_layout := d.memory_layout, end_pos := d.end_pos,
                   copied_pos :=
                     d.copied_pos + min bytes.length fd.transfer_size,
                   erased_pos := d.erased_pos,
                   block_num := d.block_num + 1, address_set := true,
                   eof := bytes.isEmpty }
               end_ := false, poll_timeout := 0, in_manifest := false }
      ∧ req = write_control download.REQUEST_TYPE download.DFU_DNLOAD
          d.block_num (bytes.take (min bytes.length fd.transfer_size)) := by
  constructor
  · intro h
    by_cases h1 : bytes.length ≤ U32_MAX
    · by_cases h2 : d.copied_pos + min bytes.length fd.transfer_size ≤ U32_MAX
      · by_cases h3 : d.block_num + 1 ≤ U16_MAX
        · simp [download.DownloadChunk.write, u32_checked_add,
            u16_checked_add, h1, h2, h3] at h
          exact ⟨h1, h2, h3, h.1.symm, h.2.symm⟩
        · simp [download.DownloadChunk.write, u32_checked_add,
            u16_checked_add, h1, h2, h3] at h
      · simp [download.DownloadChunk.write, u32_checked_add, u16_checked_add,
          h1, h2] at h
    · simp [download.DownloadChunk.write, h1] at h
  · rintro ⟨h1, h2, h3, hws, hreq⟩
    subst hws
    subst hreq
    simp [download.DownloadChunk.write, u32_checked_add, u16_checked_add,
      h1, h2, h3]

/-- A loop state whose `eof` flag is set produces exactly the final
`Break` step. -/
theorem runLoop_eof_break (fd : FunctionalDescriptor) :
    ∀ (fuel : Nat) (dl : download.DownloadLoop) (chunks : List (List Nat))
      (tr : List download.TraceStep), dl.eof = true →
      download.runLoop fd fuel dl chunks = some (.ok tr) →
      tr = [.brk] := by
  intro fuel
  cases fuel with
  | zero =>
    intro dl chunks tr _ hr
    simp [download.runLoop] at hr
  | succ n =>
    intro dl chunks tr h hr
    simp [download.runLoop, download.DownloadLoop.next, h] at hr
    exact hr.symm

/-- Chunk phase of the loop: from a state with the address set, erasure
caught up and `eof` clear, every completed run is one or more chunk
writes ending with the single empty-input chunk and the break. -/
theorem runLoop_chunk_phase (fd : FunctionalDescriptor) :
    ∀ (fuel : Nat) (dl : download.DownloadLoop) (chunks : List (List Nat))
      (tr : List download.TraceStep),
      dl.eof = false → dl.address_set = true →
      ¬dl.erased_pos < dl.end_pos →
      download.runLoop fd fuel dl chunks = some (.ok tr) →
      download.ChunkShape tr := by
  intro fuel
  induction fuel with
  | zero =>
    intro dl chunks tr _ _ _ hr
    simp [download.runLoop] at hr
  | succ n ih =>
    intro dl chunks tr he ha hlt hr
    have hnext : dl.next = download.Step.DownloadChunk
        { memory_layout := dl.memory_layout, end_pos := dl.end_pos,
          copied_pos := dl.copied_pos, erased_pos := dl.erased_pos,
          block_num := dl.block_num } := by
      simp [download.DownloadLoop.next, he, ha, hlt]
    rw [download.runLoop] at hr
    split at hr
    next heq => rw [hnext] at heq; simp at heq
    next e heq => rw [hnext] at heq; simp at heq
    next s heq => rw [hnext] at heq; simp at heq
    next d heq =>
      rw [hnext] at heq
      injection heq with hd
      subst hd
      split at hr
      next => simp at hr
      next c rest =>
        split at hr
        next er heq2 => simp at hr
        next ws req heq2 =>
          simp only [Option.map_eq_some'] at hr
          obtain ⟨r, hrun, hmap⟩ := hr
          rcases r with er | tr'
          · simp [Except.map] at hmap
          · simp only [Except.map, Except.ok.injEq] at hmap
            subst hmap
            obtain ⟨h1, h2, h3, hws, hreq⟩ :=
              (write_ok_iff fd _ c ws req).mp heq2
            subst hws
            subst hreq
            cases c with
            | nil =>
              have htr' : tr' = [.brk] :=
                runLoop_eof_break fd n _ rest tr' rfl hrun
              subst htr'
              simp only [write_control, List.take_nil, List.length_nil]
              exact download.ChunkShape.last dl.block_num
            | cons c0 cs =>
              exact download.ChunkShape.cons dl.block_num (c0 :: cs).length
                _ tr' (by simp)
                (ih _ rest tr' rfl rfl (by simpa using hlt) hrun)

/-- Erase-then-set-address phase of the loop: from a state with the
address not yet set and `eof` clear, every completed run erases page by
page from the head of the layout and then sets the address once,
followed by a well-shaped chunk phase. -/
theorem runLoop_erase_phase (fd : FunctionalDescriptor) :
    ∀ (fuel : Nat) (dl : download.DownloadLoop) (chunks : List (List Nat))
      (tr : List download.TraceStep),
      dl.eof = false → dl.address_set = false →
      download.runLoop fd fuel dl chunks = some (.ok tr) →
      download.LoopShape dl.erased_pos dl.memory_layout dl.copied_pos tr := by
  intro fuel
  induction fuel with
  | zero =>
    intro dl chunks tr _ _ hr
    simp [download.runLoop] at hr
  | succ n ih =>
    intro dl chunks tr he ha hr
    by_cases hlt : dl.erased_pos < dl.end_pos
    · have hnext : dl.next = download.Step.Erase
          { memory_layout := dl.memory_layout, end_pos := dl.end_pos,
            copied_pos := dl.copied_pos, erased_pos := dl.erased_pos,
            block_num := dl.block_num } := by
        simp [download.DownloadLoop.next, he, hlt]
      rw [download.runLoop] at hr
      split at hr
      next heq => rw [hnext] at heq; simp at heq
      next e heq =>
        rw [hnext] at heq
        injection heq with he'
        subst he'
        split at hr
        next er heq2 => simp at hr
        next ws wreq heq2 =>
          simp only [Option.map_eq_some'] at hr
          obtain ⟨r, hrun, hmap⟩ := hr
          rcases r with er | tr'
          · simp [Except.map] at hmap
          · simp only [Except.map, Except.ok.injEq] at hmap
            subst hmap
            obtain ⟨page, rest, hml, hle, hws, hreq⟩ :=
              (erase_ok_iff _ ws wreq).mp heq2
            subst hws
            have hshape := ih _ chunks tr' rfl rfl hrun
            have hml' : dl.memory_layout = page :: rest := hml
            rw [hml']
            exact download.LoopShape.erase dl.erased_pos page rest
              dl.copied_pos tr' (by simpa using hshape)
      next s heq => rw [hnext] at heq; simp at heq
      next d heq => rw [hnext] at heq; simp at heq
    · have hnext : dl.next = download.Step.SetAddress
          { memory_layout := dl.memory_layout, end_pos := dl.end_pos,
            copied_pos := dl.copied_pos, erased_pos := dl.erased_pos,
            block_num := dl.block_num } := by
        simp [download.DownloadLoop.next, he, hlt, ha]
      rw [download.runLoop] at hr
      split at hr
      next heq => rw [hnext] at heq; simp at heq
      next e heq => rw [hnext] at heq; simp at heq
      next s heq =>
        rw [hnext] at heq
        injection heq with hs
        subst hs
        simp only [Option.map_eq_some'] at hr
        obtain ⟨r, hrun, hmap⟩ := hr
        rcases r with er | tr'
        · simp [Except.map] at hmap
        · simp only [Except.map, Except.ok.injEq] at hmap
          subst hmap
          have hchunk := runLoop_chunk_phase fd n _ chunks tr' rfl rfl
            (by simpa [download.SetAddress.set_address] using hlt) hrun
          exact download.LoopShape.set dl.erased_pos dl.memory_layout
            dl.copied_pos tr' hchunk
      next d heq => rw [hnext] at heq; simp at heq

theorem eraseTrace_length : ∀ (pages : List Nat) (a : Nat),
    (download.eraseTrace a pages).length = pages.length
  | [], _ => rfl
  | p :: ps, a => by
    simp [download.eraseTrace, eraseTrace_length ps]

theorem eraseTrace_getElem? : ∀ (pages : List Nat) (a i : Nat),
    i < pages.length →
    (download.eraseTrace a pages)[i]? =
      some (.erase (a + (pages.take i).sum) (pages.getD i 0)) := by
  intro pages
  induction pages with
  | nil =>
    intro a i h
    simp at h
  | cons p ps ih =>
    intro a i h
    cases i with
    | zero => simp [download.eraseTrace]
    | succ i =>
      rw [download.eraseTrace, List.getElem?_cons_succ,
        ih (a + p) i (by simpa using h)]
      simp [Nat.add_assoc]

/-- Every well-shaped trace decomposes as an erase prefix taken from the
layout followed by the set-address step. -/
theorem LoopShape_decomp {a : Nat} {l : List Nat} {c : Nat}
    {tr : List download.TraceStep} (h : download.LoopShape a l c tr) :
    ∃ k t, k ≤ l.length
      ∧ tr = download.eraseTrace a (l.take k) ++ .setAddr c :: t := by
  induction h with
  | set a l c t ht => exact ⟨0, t, Nat.zero_le _, rfl⟩
  | erase a page l c t ht ih =>
    obtain ⟨k, t', hk, heq⟩ := ih
    exact ⟨k + 1, t', Nat.succ_le_succ hk, by
      simp [download.eraseTrace, heq]⟩

/-! ## Claim theorems -/

/-- C3: `WaitState::chain` recomputes `end` as (reported State = target),
`in_manifest` as (reported State = DfuManifest) and carries the report's
poll timeout, leaving target and continuation unchanged; `WaitState::next`
then breaks with the continuation when `end` holds, yields
`ManifestWaitReset` (reset command absent exactly when `will_detach`)
when `in_manifest` holds and the descriptor is not
manifestation-tolerant, and otherwise re-issues GETSTATUS together with
the carried poll timeout. -/
theorem C3_wait_state (T : Type) (w : get_status.WaitState T)
    (status : Status) (pt : Nat) (state : State) (ix : Nat)
    (fd : FunctionalDescriptor) :
    ((w.chain (status, pt, state, ix)).end_ = decide (state = w.state)
      ∧ (w.chain (status, pt, state, ix)).in_manifest =
          decide (state = State.DfuManifest)
      ∧ (w.chain (status, pt, state, ix)).poll_timeout = pt
      ∧ (w.chain (status, pt, state, ix)).state = w.state
      ∧ (w.chain (status, pt, state, ix)).chained_command =
          w.chained_command)
    ∧ (∀ w' : get_status.WaitState T,
        (w'.end_ = true → w'.next fd = .Break w'.chained_command)
        ∧ (w'.end_ = false → w'.in_manifest = true →
            fd.manifestation_tolerant = false →
            w'.next fd = .ManifestWaitReset
              (if fd.will_detach then none
               else some { chained_command := () }))
        ∧ (w'.end_ = false →
            (w'.in_manifest = false ∨ fd.manifestation_tolerant = true) →
            w'.next fd = .Wait { chained_command := w' } w'.poll_timeout)) := by
  refine ⟨⟨rfl, rfl, rfl, rfl, rfl⟩, fun w' => ⟨fun he => ?_,
    fun he hm ht => ?_, fun he hmt => ?_⟩⟩
  · simp [get_status.WaitState.next, he]
  · simp [get_status.WaitState.next, he, hm, ht]
  · rcases hmt with hm | ht
    · simp [get_status.WaitState.next, he, hm]
    · simp [get_status.WaitState.next, he, ht]

/-- C3 witness: feeding a `DfuManifest` report to a `DfuDnloadIdle`-target
wait state sets `in_manifest` and keeps the timeout; with
`manifestation_tolerant = false`, `will_detach = true` yields
`ManifestWaitReset none` and `will_detach = false` yields
`ManifestWaitReset (some reset)`; a `DfuDnloadIdle` report then makes
`next` break. -/
theorem C3_wait_state_witness :
    (get_status.WaitState.chain (T := Nat)
        { state := State.DfuDnloadIdle, chained_command := 7, end_ := false,
          poll_timeout := 0, in_manifest := false }
        (Status.Ok, 25, State.DfuManifest, 0)).in_manifest = true
    ∧ (get_status.WaitState.chain (T := Nat)
        { state := State.DfuDnloadIdle, chained_command := 7, end_ := false,
          poll_timeout := 0, in_manifest := false }
        (Status.Ok, 25, State.DfuManifest, 0)).poll_timeout = 25
    ∧ get_status.WaitState.next (T := Nat)
        { transfer_size := 64, manifestation_tolerant := false,
          will_detach := true }
        { state := State.DfuDnloadIdle, chained_command := 7, end_ := false,
          poll_timeout := 25, in_manifest := true } =
      .ManifestWaitReset none
    ∧ get_status.WaitState.next (T := Nat)
        { transfer_size := 64, manifestation_tolerant := false,
          will_detach := false }
        { state := State.DfuDnloadIdle, chained_command := 7, end_ := false,
          poll_timeout := 25, in_manifest := true } =
      .ManifestWaitReset (some { chained_command := () })
    ∧ get_status.WaitState.next (T := Nat)
        { transfer_size := 64, manifestation_tolerant := false,
          will_detach := true }
        { state := State.DfuDnloadIdle, chained_command := 7, end_ := true,
          poll_timeout := 25, in_manifest := false } =
      .Break 7 := by
  refine ⟨?_, ?_, ?_, ?_, ?_⟩
  · exact (C3_wait_state Nat
      { state := State.DfuDnloadIdle, chained_command := 7, end_ := false,
        poll_timeout := 0, in_manifest := false }
      Status.Ok 25 State.DfuManifest 0
      { transfer_size := 64, manifestation_tolerant := false,
        will_detach := true }).1.2.1
  · exact (C3_wait_state Nat
      { state := State.DfuDnloadIdle, chained_command := 7, end_ := false,
        poll_timeout := 0, in_manifest := false }
      Status.Ok 25 State.DfuManifest 0
      { transfer_size := 64, manifestation_tolerant := false,
        will_detach := true }).1.2.2.1
  · exact ((C3_wait_state Nat
      { state := State.DfuDnloadIdle, chained_command := 7, end_ := false,
        poll_timeout := 0, in_manifest := false }
      Status.Ok 25 State.DfuManifest 0
      { transfer_size := 64, manifestation_tolerant := false,
        will_detach := true }).2
      { state := State.DfuDnloadIdle, chained_command := 7, end_ := false,
        poll_timeout := 25, in_manifest := true }).2.1 rfl rfl rfl
  · exact ((C3_wait_state Nat
      { state := State.DfuDnloadIdle, chained_command := 7, end_ := false,
        poll_timeout := 0, in_manifest := false }
      Status.Ok 25 State.DfuManifest 0
      { transfer_size := 64, manifestation_tolerant := false,
        will_detach := false }).2
      { state := State.DfuDnloadIdle, chained_command := 7, end_ := false,
        poll_timeout := 25, in_manifest := true }).2.1 rfl rfl rfl
  · exact ((C3_wait_state Nat
      { state := State.DfuDnloadIdle, chained_command := 7, end_ := false,
        poll_timeout := 0, in_manifest := false }
      Status.Ok 25 State.DfuManifest 0
      { transfer_size := 64, manifestation_tolerant := false,
        will_detach := true }).2
      { state := State.DfuDnloadIdle, chained_command := 7, end_ := true,
        poll_timeout := 25, in_manifest := false }).1 rfl

/-- C5: `ErasePage::erase` on an exhausted layout is the hard
`NoSpaceLeft` error; otherwise it issues the page-erase command, the
continuation's `erased_pos` advances by exactly the head page's size,
that page is consumed (the continuation holds the rest), and overflow
of the advance is the `EraseLimitReached` error. -/
theorem C5_erase_page (e : download.ErasePage) :
    (e.memory_layout = [] → e.erase = .error .NoSpaceLeft)
    ∧ (∀ page rest, e.memory_layout = page :: rest →
        (e.erased_pos + page ≤ U32_MAX →
          e.erase = .ok
            ({ state := State.DfuDnloadIdle
               chained_command :=
                 { memory_layout := rest, end_pos := e.end_pos,
                   copied_pos := e.copied_pos,
                   erased_pos := e.erased_pos + page,
                   block_num := e.block_num, address_set := false,
                   eof := false }
               end_ := false, poll_timeout := 0, in_manifest := false },
             write_control download.REQUEST_TYPE download.DFU_DNLOAD 0
               (download.DownloadCommandErase.toBytes
                 { addr := e.erased_pos })))
        ∧ (U32_MAX < e.erased_pos + page →
            e.erase = .error .EraseLimitReached)) := by
  refine ⟨fun h => ?_, fun page rest h => ⟨fun hle => ?_, fun hlt => ?_⟩⟩
  · simp [download.ErasePage.erase, h]
  · exact (erase_ok_iff e _ _).mpr ⟨page, rest, h, hle, rfl, rfl⟩
  · have hnle : ¬e.erased_pos + page ≤ U32_MAX := by omega
    simp [download.ErasePage.erase, h, u32_checked_add, hnle]

/-- C5 witness: an empty layout errors with `NoSpaceLeft`; a head page
of 4 at position 3 erases to position 7 with layout `[8]` remaining; a
head page of 1 at position `u32::MAX` errors with `EraseLimitReached`. -/
theorem C5_erase_page_witness :
    download.ErasePage.erase
      { memory_layout := [], end_pos := 9, copied_pos := 3, erased_pos := 3,
        block_num := 2 } = .error .NoSpaceLeft
    ∧ download.ErasePage.erase
      { memory_layout := [4, 8], end_pos := 9, copied_pos := 3,
        erased_pos := 3, block_num := 2 } = .ok
        ({ state := State.DfuDnloadIdle
           chained_command :=
             { memory_layout := [8], end_pos := 9, copied_pos := 3,
               erased_pos := 7, block_num := 2, address_set := false,
               eof := false }
           end_ := false, poll_timeout := 0, in_manifest := false },
         write_control download.REQUEST_TYPE download.DFU_DNLOAD 0
           (download.DownloadCommandErase.toBytes { addr := 3 }))
    ∧ download.ErasePage.erase
      { memory_layout := [1], end_pos := 4294967295, copied_pos := 0,
        erased_pos := 4294967295, block_num := 2 } =
        .error .EraseLimitReached :=
  ⟨(C5_erase_page
      { memory_layout := [], end_pos := 9, copied_pos := 3, erased_pos := 3,
        block_num := 2 }).1 rfl,
   ((C5_erase_page
      { memory_layout := [4, 8], end_pos := 9, copied_pos := 3,
        erased_pos := 3, block_num := 2 }).2 4 [8] rfl).1 (by decide),
   ((C5_erase_page
      { memory_layout := [1], end_pos := 4294967295, copied_pos := 0,
        erased_pos := 4294967295, block_num := 2 }).2 1 [] rfl).2
     (by decide)⟩

/-- C7: a status report fed to the session-start step with State
`DfuIdle` yields a download loop with `block_num = 2`, `copied_pos` and
`erased_pos` both at the session's start address, address not yet set
and `eof = false`; any other reported State fails with `InvalidState`
naming the observed State and the expected `DfuIdle`. -/
theorem C7_start_chain (st : download.Start) (status : Status) (pt : Nat)
    (state : State) (ix : Nat) :
    (state = State.DfuIdle →
      st.chain (status, pt, state, ix) = .ok
        { memory_layout := st.memory_layout, end_pos := st.end_pos,
          copied_pos := st.address, erased_pos := st.address,
          address_set := false, block_num := 2, eof := false })
    ∧ (state ≠ State.DfuIdle →
      st.chain (status, pt, state, ix) =
        .error (.InvalidState state State.DfuIdle)) := by
  constructor <;> intro h <;> simp [download.Start.chain, h]

/-- C7 witness: session start at `DfuIdle` succeeds with the stated
cursor; observing `DfuDnbusy` fails with the invalid-state error. -/
theorem C7_start_chain_witness :
    download.Start.chain
      { memory_layout := [4, 4], address := 7, end_pos := 11 }
      (Status.Ok, 0, State.DfuIdle, 0) = .ok
        { memory_layout := [4, 4], end_pos := 11, copied_pos := 7,
          erased_pos := 7, address_set := false, block_num := 2,
          eof := false }
    ∧ download.Start.chain
      { memory_layout := [4, 4], address := 7, end_pos := 11 }
      (Status.Ok, 0, State.DfuDnbusy, 0) =
        .error (.InvalidState State.DfuDnbusy State.DfuIdle) :=
  ⟨(C7_start_chain { memory_layout := [4, 4], address := 7, end_pos := 11 }
      Status.Ok 0 State.DfuIdle 0).1 rfl,
   (C7_start_chain { memory_layout := [4, 4], address := 7, end_pos := 11 }
      Status.Ok 0 State.DfuDnbusy 0).2 (by decide)⟩

/-- C8: `GetStatus::get_status` on a response buffer shorter than 6
bytes fails (`debug_assert!` precondition, modelled as `none`) instead
of producing the pending read request. -/
theorem C8_get_status_short (T : Type) (g : get_status.GetStatus T)
    (buffer_len : Nat) (h : buffer_len < 6) :
    g.get_status buffer_len = none := by
  unfold get_status.GetStatus.get_status
  rw [if_neg (by omega)]

/-- C8 witness: a 5-byte buffer is rejected. -/
theorem C8_get_status_short_witness :
    get_status.GetStatus.get_status (T := Unit) { chained_command := () } 5 =
      none :=
  C8_get_status_short Unit { chained_command := () } 5 (by decide)

/-- C9: `GetStatusRecv::chain` on fewer than 6 bytes returns the
response-too-short error with the got length and expected length 6;
on at least 6 bytes decoding is total: the result is either the chained
continuation's output or one of the two terminal status/state errors,
never the too-short error. -/
theorem C9_chain_total (T I : Type) (f : T → GetStatusMessage → I)
    (recv : get_status.GetStatusRecv T) (bytes : List Nat) :
    (bytes.length < 6 →
      recv.chain f bytes = .error (.ResponseTooShort bytes.length 6))
    ∧ (6 ≤ bytes.length →
      (∃ v, recv.chain f bytes = .ok v)
      ∨ (∃ s, recv.chain f bytes = .error (.StatusError s))
      ∨ (∃ s, recv.chain f bytes = .error (.StateError s))) := by
  match bytes with
  | [] => exact ⟨fun _ => rfl, by simp⟩
  | [b0] => exact ⟨fun _ => rfl, by simp⟩
  | [b0, b1] => exact ⟨fun _ => rfl, by simp⟩
  | [b0, b1, b2] => exact ⟨fun _ => rfl, by simp⟩
  | [b0, b1, b2, b3] => exact ⟨fun _ => rfl, by simp⟩
  | [b0, b1, b2, b3, b4] => exact ⟨fun _ => rfl, by simp⟩
  | b0 :: b1 :: b2 :: b3 :: b4 :: b5 :: rest =>
    refine ⟨fun h => by simp at h; omega, fun _ => ?_⟩
    by_cases hs : Status.fromByte b0 = Status.Ok
    · by_cases ht : State.fromByte b4 = State.DfuError
      · refine Or.inr (Or.inr ⟨State.DfuError, ?_⟩)
        simp [get_status.GetStatusRecv.chain, status_raise_error_eq,
          state_raise_error_eq, hs, ht, except_bind_ok, except_bind_error]
      · refine Or.inl ⟨f recv.chained_command
          (Status.fromByte b0, b1 + 256 * b2 + 65536 * b3,
            State.fromByte b4, b5), ?_⟩
        simp [get_status.GetStatusRecv.chain, status_raise_error_eq,
          state_raise_error_eq, hs, ht, except_bind_ok, except_bind_error]
    · refine Or.inr (Or.inl ⟨Status.fromByte b0, ?_⟩)
      simp [get_status.GetStatusRecv.chain, status_raise_error_eq, hs,
        except_bind_ok, except_bind_error]

/-- C9 witness: a 3-byte response yields the too-short error; a 6-byte
all-zero response decodes totally. -/
theorem C9_chain_total_witness :
    get_status.GetStatusRecv.chain (T := Unit) (I := GetStatusMessage)
      (fun _ msg => msg) { chained_command := () } [0, 0, 0] =
        .error (.ResponseTooShort 3 6)
    ∧ ((∃ v, get_status.GetStatusRecv.chain (T := Unit)
          (I := GetStatusMessage) (fun _ msg => msg) { chained_command := () }
          [0, 0, 0, 0, 0, 0] = .ok v)
      ∨ (∃ s, get_status.GetStatusRecv.chain (T := Unit)
          (I := GetStatusMessage) (fun _ msg => msg) { chained_command := () }
          [0, 0, 0, 0, 0, 0] = .error (.StatusError s))
      ∨ (∃ s, get_status.GetStatusRecv.chain (T := Unit)
          (I := GetStatusMessage) (fun _ msg => msg) { chained_command := () }
          [0, 0, 0, 0, 0, 0] = .error (.StateError s))) :=
  ⟨(C9_chain_total Unit GetStatusMessage (fun _ msg => msg)
      { chained_command := () } [0, 0, 0]).1 (by decide),
   (C9_chain_total Unit GetStatusMessage (fun _ msg => msg)
      { chained_command := () } [0, 0, 0, 0, 0, 0]).2 (by decide)⟩

/-- C4: on a 6-byte-or-longer response, `GetStatusRecv::chain`
short-circuits with an error whenever the decoded Status is not `Ok`
(error value independent of the continuation) or the decoded State is
`DfuError`; the registered continuation is invoked exactly when Status
is `Ok` and State is not `DfuError`. -/
theorem C4_chain_short_circuit (T I : Type) (f : T → GetStatusMessage → I)
    (recv : get_status.GetStatusRecv T) (b0 b1 b2 b3 b4 b5 : Nat)
    (rest : List Nat) :
    (Status.fromByte b0 ≠ Status.Ok →
      recv.chain f (b0 :: b1 :: b2 :: b3 :: b4 :: b5 :: rest) =
        .error (.StatusError (Status.fromByte b0)))
    ∧ (Status.fromByte b0 = Status.Ok → State.fromByte b4 = State.DfuError →
      recv.chain f (b0 :: b1 :: b2 :: b3 :: b4 :: b5 :: rest) =
        .error (.StateError State.DfuError))
    ∧ (Status.fromByte b0 = Status.Ok → State.fromByte b4 ≠ State.DfuError →
      recv.chain f (b0 :: b1 :: b2 :: b3 :: b4 :: b5 :: rest) =
        .ok (f recv.chained_command
          (Status.fromByte b0, b1 + 256 * b2 + 65536 * b3,
            State.fromByte b4, b5))) := by
  refine ⟨fun hs => ?_, fun hs ht => ?_, fun hs ht => ?_⟩
  · simp [get_status.GetStatusRecv.chain, status_raise_error_eq, hs,
      except_bind_ok, except_bind_error]
  · simp [get_status.GetStatusRecv.chain, status_raise_error_eq,
      state_raise_error_eq, hs, ht, except_bind_ok, except_bind_error]
  · simp [get_status.GetStatusRecv.chain, status_raise_error_eq,
      state_raise_error_eq, hs, ht, except_bind_ok, except_bind_error]

/-- C4 witness: status byte `0x03` (write error) short-circuits; state
byte `10` (`DfuError`) short-circuits; status `Ok` with state `DfuIdle`
reaches the continuation. -/
theorem C4_chain_short_circuit_witness :
    get_status.GetStatusRecv.chain (T := Unit) (I := GetStatusMessage)
      (fun _ msg => msg) { chained_command := () } [3, 1, 0, 0, 2, 0] =
        .error (.StatusError Status.ErrWrite)
    ∧ get_status.GetStatusRecv.chain (T := Unit) (I := GetStatusMessage)
      (fun _ msg => msg) { chained_command := () } [0, 1, 0, 0, 10, 0] =
        .error (.StateError State.DfuError)
    ∧ get_status.GetStatusRecv.chain (T := Unit) (I := GetStatusMessage)
      (fun _ msg => msg) { chained_command := () } [0, 1, 0, 0, 2, 9] =
        .ok (Status.Ok, 1, State.DfuIdle, 9) :=
  ⟨(C4_chain_short_circuit Unit GetStatusMessage (fun _ msg => msg)
      { chained_command := () } 3 1 0 0 2 0 []).1 (by decide),
   (C4_chain_short_circuit Unit GetStatusMessage (fun _ msg => msg)
      { chained_command := () } 0 1 0 0 10 0 []).2.1 rfl rfl,
   (C4_chain_short_circuit Unit GetStatusMessage (fun _ msg => msg)
      { chained_command := () } 0 1 0 0 2 9 []).2.2 rfl (by decide)⟩

/-- C6: the erase command is exactly 5 bytes, opcode `0x41` followed by
the little-endian 32-bit address; the set-address command is opcode
`0x21` followed by the little-endian 32-bit address (`u32_to_le_bytes`
is a genuine 4-byte little-endian encoding); erase, set-address and
CLRSTATUS transfers carry `wValue = 0`, and every chunk-write DNLOAD
transfer carries `wValue` equal to the current block number. -/
theorem C6_wire_encoding :
    (∀ c : download.DownloadCommandErase,
      c.toBytes.length = 5 ∧ c.toBytes = 0x41 :: u32_to_le_bytes c.addr)
    ∧ (∀ c : download.DownloadCommandSetAddress,
      c.toBytes.length = 5 ∧ c.toBytes = 0x21 :: u32_to_le_bytes c.addr)
    ∧ (∀ n : Nat, (u32_to_le_bytes n).length = 4
      ∧ (∀ b ∈ u32_to_le_bytes n, b < 256)
      ∧ (n ≤ U32_MAX → le_decode (u32_to_le_bytes n) = n))
    ∧ (∀ (e : download.ErasePage)
        (ws : get_status.WaitState download.DownloadLoop)
        (req : ControlRequest), e.erase = .ok (ws, req) →
      req.value = 0 ∧ req.request = download.DFU_DNLOAD
        ∧ req.payload =
            download.DownloadCommandErase.toBytes { addr := e.erased_pos })
    ∧ (∀ s : download.SetAddress,
      (s.set_address).2.value = 0
        ∧ (s.set_address).2.request = download.DFU_DNLOAD
        ∧ (s.set_address).2.payload =
            download.DownloadCommandSetAddress.toBytes
              { addr := s.copied_pos })
    ∧ (∀ (T : Type) (cl : get_status.ClearStatus T),
      (cl.clear).2.value = 0 ∧ (cl.clear).2.payload = []
        ∧ (cl.clear).2.request = get_status.DFU_CLRSTATUS)
    ∧ (∀ (fd : FunctionalDescriptor) (d : download.DownloadChunk)
        (bytes : List Nat) (ws : get_status.WaitState download.DownloadLoop)
        (req : ControlRequest), d.write fd bytes = .ok (ws, req) →
      req.value = d.block_num ∧ req.request = download.DFU_DNLOAD) := by
  refine ⟨fun c => ⟨rfl, rfl⟩, fun c => ⟨rfl, rfl⟩,
    fun n => ⟨rfl, ?_, fun hle => ?_⟩,
    fun e ws req h => ?_, fun s => ⟨rfl, rfl, rfl⟩,
    fun T cl => ⟨rfl, rfl, rfl⟩, fun fd d bytes ws req h => ?_⟩
  · simp [u32_to_le_bytes]
    omega
  · simp [u32_to_le_bytes, le_decode, U32_MAX] at hle ⊢
    omega
  · obtain ⟨page, rest, hml, hle2, hws, hreq⟩ := (erase_ok_iff e ws req).mp h
    subst hreq
    exact ⟨rfl, rfl, rfl⟩
  · obtain ⟨h1, h2, h3, hws, hreq⟩ := (write_ok_iff fd d bytes ws req).mp h
    subst hreq
    exact ⟨rfl, rfl⟩

/-- C6 witness: the 5-byte encodings at address `0x04030201`, the
little-endian round trip there, and the `wValue` facts at concrete
erase/set-address/clear/chunk steps. -/
theorem C6_wire_encoding_witness :
    download.DownloadCommandErase.toBytes { addr := 0x04030201 } =
      [0x41, 0x01, 0x02, 0x03, 0x04]
    ∧ download.DownloadCommandSetAddress.toBytes { addr := 0x04030201 } =
      [0x21, 0x01, 0x02, 0x03, 0x04]
    ∧ le_decode (u32_to_le_bytes 0x04030201) = 0x04030201
    ∧ (∀ (ws : get_status.WaitState download.DownloadLoop)
        (req : ControlRequest),
        download.ErasePage.erase
          { memory_layout := [4], end_pos := 4, copied_pos := 0,
            erased_pos := 0, block_num := 2 } = .ok (ws, req) →
        req.value = 0)
    ∧ (download.SetAddress.set_address
        { memory_layout := [], end_pos := 4, copied_pos := 0,
          erased_pos := 4, block_num := 2 }).2.value = 0
    ∧ (get_status.ClearStatus.clear (T := Unit)
        { chained_command := () }).2.value = 0
    ∧ (∀ (ws : get_status.WaitState download.DownloadLoop)
        (req : ControlRequest),
        download.DownloadChunk.write
          { transfer_size := 8, manifestation_tolerant := true,
            will_detach := true }
          { memory_layout := [], end_pos := 4, copied_pos := 0,
            erased_pos := 4, block_num := 5 } [1, 2, 3] = .ok (ws, req) →
        req.value = 5) := by
  refine ⟨?_, ?_, ?_, ?_, ?_, ?_, ?_⟩
  · rw [(C6_wire_encoding.1 { addr := 0x04030201 }).2]
    rfl
  · rw [(C6_wire_encoding.2.1 { addr := 0x04030201 }).2]
    rfl
  · exact (C6_wire_encoding.2.2.1 0x04030201).2.2 (by decide)
  · exact fun ws req h => (C6_wire_encoding.2.2.2.1
      { memory_layout := [4], end_pos := 4, copied_pos := 0,
        erased_pos := 0, block_num := 2 } ws req h).1
  · exact (C6_wire_encoding.2.2.2.2.1
      { memory_layout := [], end_pos := 4, copied_pos := 0,
        erased_pos := 4, block_num := 2 }).1
  · exact (C6_wire_encoding.2.2.2.2.2.1 Unit { chained_command := () }).1
  · exact fun ws req h => (C6_wire_encoding.2.2.2.2.2.2
      { transfer_size := 8, manifestation_tolerant := true,
        will_detach := true }
      { memory_layout := [], end_pos := 4, copied_pos := 0,
        erased_pos := 4, block_num := 5 } [1, 2, 3] ws req h).1

/-- C2 counterexample: the claim quantifies over every byte slice, but a
slice longer than `u32::MAX` bytes makes `DownloadChunk::write` fail
with the buffer-too-big error instead of issuing a truncated write of
`min(length, transfer_size)` bytes. -/
theorem C2_counterexample :
    download.DownloadChunk.write
      { transfer_size := 2048, manifestation_tolerant := true,
        will_detach := true }
      { memory_layout := [], end_pos := 0, copied_pos := 0, erased_pos := 0,
        block_num := 2 }
      (List.replicate 4294967296 0) =
      .error (.BufferTooBig 4294967296 4294967295) := by
  have hgt : ¬(List.replicate 4294967296 (0 : Nat)).length ≤ U32_MAX := by
    rw [List.length_replicate]; decide
  rw [download.DownloadChunk.write, if_neg hgt, List.length_replicate]
  rfl

/-- C2 (amended): for every byte slice of length at most `u32::MAX`
(longer slices fail with the buffer-too-big error, see the
counterexample), `DownloadChunk::write` issues a write of exactly
`min(slice length, transfer_size)` bytes at the current block number,
advances `copied_pos` by that same number (failing with
`MaximumTransferSizeExceeded` when the addition overflows), increments
`block_num` (failing with `MaximumChunksExceeded` when that addition
overflows), and sets the continuation's `eof` flag exactly when the
slice is empty, which makes the next loop step produce `Break`. -/
theorem C2_chunk_write (fd : FunctionalDescriptor)
    (d : download.DownloadChunk) (bytes : List Nat)
    (hlen : bytes.length ≤ U32_MAX) :
    (U32_MAX < d.copied_pos + min bytes.length fd.transfer_size →
      d.write fd bytes = .error .MaximumTransferSizeExceeded)
    ∧ (d.copied_pos + min bytes.length fd.transfer_size ≤ U32_MAX →
        U16_MAX < d.block_num + 1 →
      d.write fd bytes = .error .MaximumChunksExceeded)
    ∧ (d.copied_pos + min bytes.length fd.transfer_size ≤ U32_MAX →
        d.block_num + 1 ≤ U16_MAX →
      ∃ (ws : get_status.WaitState download.DownloadLoop)
        (req : ControlRequest),
        d.write fd bytes = .ok (ws, req)
        ∧ req.value = d.block_num
        ∧ req.payload = bytes.take (min bytes.length fd.transfer_size)
        ∧ req.payload.length = min bytes.length fd.transfer_size
        ∧ ws.chained_command.copied_pos =
            d.copied_pos + min bytes.length fd.transfer_size
        ∧ ws.chained_command.block_num = d.block_num + 1
        ∧ (ws.chained_command.eof = true ↔ bytes = [])
        ∧ (bytes = [] → ws.chained_command.next = .Break)) := by
  have hmin : min bytes.length fd.transfer_size ≤ bytes.length :=
    Nat.min_le_left _ _
  refine ⟨fun hof => ?_, fun hc hof => ?_, fun hc hb => ?_⟩
  · have hnle : ¬d.copied_pos + min bytes.length fd.transfer_size ≤
        U32_MAX := by omega
    simp [download.DownloadChunk.write, u32_checked_add, hlen, hnle]
  · have hnle : ¬d.block_num + 1 ≤ U16_MAX := by omega
    simp [download.DownloadChunk.write, u32_checked_add, u16_checked_add,
      hlen, hc, hnle]
  · refine ⟨_, _, (write_ok_iff fd d bytes _ _).mpr
      ⟨hlen, hc, hb, rfl, rfl⟩, rfl, rfl, ?_, rfl, rfl, ?_, fun hemp => ?_⟩
    · simp [write_control, List.length_take]
    · simp [List.isEmpty_iff]
    · subst hemp
      simp [download.DownloadLoop.next, List.isEmpty]

/-- C2 witness: the spec's truncation scenario in miniature — a 4-byte
chunk against a transfer-size limit of 2 — truncates the write to 2
bytes at block number 2 and advances `copied_pos` by exactly 2, not 4;
the continuation's block number becomes 3 and `eof` stays clear. -/
theorem C2_chunk_write_witness :
    ∃ (ws : get_status.WaitState download.DownloadLoop)
      (req : ControlRequest),
      download.DownloadChunk.write
        { transfer_size := 2, manifestation_tolerant := true,
          will_detach := true }
        { memory_layout := [], end_pos := 4, copied_pos := 0,
          erased_pos := 4, block_num := 2 }
        [7, 7, 7, 7] = .ok (ws, req)
      ∧ req.value = 2
      ∧ req.payload = [7, 7]
      ∧ req.payload.length = 2
      ∧ ws.chained_command.copied_pos = 2
      ∧ ws.chained_command.block_num = 3
      ∧ (ws.chained_command.eof = true ↔ ([7, 7, 7, 7] : List Nat) = [])
      ∧ (([7, 7, 7, 7] : List Nat) = [] →
          ws.chained_command.next = .Break) := by
  obtain ⟨ws, req, h1, h2, h3, h4, h5, h6, h7, h8⟩ := (C2_chunk_write
    { transfer_size := 2, manifestation_tolerant := true,
      will_detach := true }
    { memory_layout := [], end_pos := 4, copied_pos := 0,
      erased_pos := 4, block_num := 2 }
    [7, 7, 7, 7] (by decide)).2.2 (by decide) (by decide)
  exact ⟨ws, req, h1, h2, by rw [h3]; try decide, by rw [h4]; try decide,
    by rw [h5]; try decide, by rw [h6]; try decide, h7, h8⟩

/-- C1: every completed run of a download session started by
`Start::chain` produces its steps in exactly the order: zero or more
erases (each at the running erase position, consuming the head page of
the layout, so the erased position increases by exactly the consumed
page sizes), then exactly one set-address at the start address, then one
or more chunk writes of which exactly the last has an empty input slice,
then the break — and each of the three acting phases returns a polling
state targeting `DfuDnloadIdle` (with `end` and `in_manifest` clear)
whose continuation is the next loop state that the run resumes. -/
theorem C1_download_order :
    (∀ (st : download.Start) (status : Status) (pt : Nat) (state : State)
      (ix : Nat) (dl : download.DownloadLoop) (fd : FunctionalDescriptor)
      (fuel : Nat) (chunks : List (List Nat))
      (tr : List download.TraceStep),
      st.chain (status, pt, state, ix) = .ok dl →
      download.runLoop fd fuel dl chunks = some (.ok tr) →
      download.LoopShape st.address st.memory_layout st.address tr)
    ∧ (∀ (e : download.ErasePage)
        (ws : get_status.WaitState download.DownloadLoop)
        (req : ControlRequest), e.erase = .ok (ws, req) →
        ws.state = State.DfuDnloadIdle ∧ ws.end_ = false
          ∧ ws.in_manifest = false)
    ∧ (∀ s : download.SetAddress,
        (s.set_address).1.state = State.DfuDnloadIdle
          ∧ (s.set_address).1.end_ = false
          ∧ (s.set_address).1.in_manifest = false)
    ∧ (∀ (fd : FunctionalDescriptor) (d : download.DownloadChunk)
        (bytes : List Nat)
        (ws : get_status.WaitState download.DownloadLoop)
        (req : ControlRequest), d.write fd bytes = .ok (ws, req) →
        ws.state = State.DfuDnloadIdle ∧ ws.end_ = false
          ∧ ws.in_manifest = false) := by
  refine ⟨fun st status pt state ix dl fd fuel chunks tr hchain hrun => ?_,
    fun e ws req h => ?_, fun s => ⟨rfl, rfl, rfl⟩,
    fun fd d bytes ws req h => ?_⟩
  · simp only [download.Start.chain] at hchain
    split at hchain
    · injection hchain with hdl
      subst hdl
      exact runLoop_erase_phase fd fuel _ chunks tr rfl rfl hrun
    · exact absurd hchain (by simp)
  · obtain ⟨page, rest, hml, hle, hws, hreq⟩ := (erase_ok_iff e ws req).mp h
    subst hws
    exact ⟨rfl, rfl, rfl⟩
  · obtain ⟨h1, h2, h3, hws, hreq⟩ := (write_ok_iff fd d bytes ws req).mp h
    subst hws
    exact ⟨rfl, rfl, rfl⟩

/-- C1 witness: the session at address 0, end-position 1, layout `[2]`,
driven with a 2-byte chunk and the empty end-of-stream chunk, produces
the well-shaped trace erase–set-address–chunk–empty-chunk–break. -/
theorem C1_download_order_witness :
    download.LoopShape 0 [2] 0
      [.erase 0 2, .setAddr 0, .chunk 2 2 2, .chunk 3 0 0, .brk] :=
  C1_download_order.1
    { memory_layout := [2], address := 0, end_pos := 1 }
    Status.Ok 0 State.DfuIdle 0
    { memory_layout := [2], end_pos := 1, copied_pos := 0, erased_pos := 0,
      address_set := false, block_num := 2, eof := false }
    { transfer_size := 8, manifestation_tolerant := true,
      will_detach := true }
    10 [[1, 2], []]
    [.erase 0 2, .setAddr 0, .chunk 2 2 2, .chunk 3 0 0, .brk]
    rfl rfl

/-- C10: each erase command carries the pre-advance erased position on
the wire while the advanced value appears only in the continuation; in a
session started at address `A`, the `(i+1)`-th erase command of a
completed run is at address `A` plus the sum of the first `i` page sizes
of the memory layout, and the set-address step follows the `k` erases at
index `k`. -/
theorem C10_erase_addresses :
    (∀ (e : download.ErasePage)
      (ws : get_status.WaitState download.DownloadLoop)
      (req : ControlRequest), e.erase = .ok (ws, req) →
      req.payload = 0x41 :: u32_to_le_bytes e.erased_pos
      ∧ ws.chained_command.erased_pos =
          e.erased_pos + e.memory_layout.headD 0)
    ∧ (∀ (st : download.Start) (status : Status) (pt : Nat) (state : State)
      (ix : Nat) (dl : download.DownloadLoop) (fd : FunctionalDescriptor)
      (fuel : Nat) (chunks : List (List Nat))
      (tr : List download.TraceStep),
      st.chain (status, pt, state, ix) = .ok dl →
      download.runLoop fd fuel dl chunks = some (.ok tr) →
      ∃ k, k ≤ st.memory_layout.length
        ∧ tr[k]? = some (.setAddr st.address)
        ∧ ∀ i, i < k → tr[i]? = some (.erase
            (st.address + (st.memory_layout.take i).sum)
            (st.memory_layout.getD i 0))) := by
  constructor
  · intro e ws req h
    obtain ⟨page, rest, hml, hle, hws, hreq⟩ := (erase_ok_iff e ws req).mp h
    subst hws
    subst hreq
    rw [hml]
    exact ⟨rfl, rfl⟩
  · intro st status pt state ix dl fd fuel chunks tr hchain hrun
    have hshape : download.LoopShape st.address st.memory_layout st.address
        tr := by
      simp only [download.Start.chain] at hchain
      split at hchain
      · injection hchain with hdl
        subst hdl
        exact runLoop_erase_phase fd fuel _ chunks tr rfl rfl hrun
      · exact absurd hchain (by simp)
    obtain ⟨k, t, hk, heq⟩ := LoopShape_decomp hshape
    have hlen : (download.eraseTrace st.address
        (st.memory_layout.take k)).length = k := by
      rw [eraseTrace_length, List.length_take, Nat.min_eq_left hk]
    refine ⟨k, hk, ?_, fun i hi => ?_⟩
    · rw [heq, List.getElem?_append, hlen]
      simp
    · rw [heq, List.getElem?_append, hlen, if_pos hi,
        eraseTrace_getElem? _ _ _ (by rw [List.length_take]; omega)]
      have h1 : ((st.memory_layout.take k).take i).sum =
          (st.memory_layout.take i).sum := by
        rw [List.take_take, Nat.min_eq_left (Nat.le_of_lt hi)]
      have h2 : (st.memory_layout.take k).getD i 0 =
          st.memory_layout.getD i 0 := by
        rw [List.getD_eq_getElem?_getD, List.getD_eq_getElem?_getD,
          List.getElem?_take, if_pos hi]
      rw [h1, h2]

/-- C10 witness: a session at address 5 with layout `[2, 3]` and
end-position 9 completes with two erases, at addresses `5` and `5 + 2`,
followed by the set-address step at index 2. -/
theorem C10_erase_addresses_witness :
    ∃ k, k ≤ ([2, 3] : List Nat).length
      ∧ ([.erase 5 2, .erase 7 3, .setAddr 5, .chunk 2 1 1, .chunk 3 0 0,
          .brk] : List download.TraceStep)[k]? = some (.setAddr 5)
      ∧ ∀ i, i < k →
        ([.erase 5 2, .erase 7 3, .setAddr 5, .chunk 2 1 1, .chunk 3 0 0,
          .brk] : List download.TraceStep)[i]? = some (.erase
            (5 + (([2, 3] : List Nat).take i).sum)
            (([2, 3] : List Nat).getD i 0)) :=
  C10_erase_addresses.2
    { memory_layout := [2, 3], address := 5, end_pos := 9 }
    Status.Ok 0 State.DfuIdle 0
    { memory_layout := [2, 3], end_pos := 9, copied_pos := 5, erased_pos := 5,
      address_set := false, block_num := 2, eof := false }
    { transfer_size := 8, manifestation_tolerant := true,
      will_detach := true }
    10 [[1], []]
    [.erase 5 2, .erase 7 3, .setAddr 5, .chunk 2 1 1, .chunk 3 0 0, .brk]
    rfl rfl

end Dfu
